import Mathlib

/-!
Shallow embedding of ksshaskpass (src/main.cpp).

The program has two cores: `parsePrompt`, which classifies the prompt text by
trying a fixed, ordered list of QRegularExpression patterns, and the wallet
lookup in `main`, which reads the canonical identifier from KWallet and falls
back to three legacy key spellings, renaming a legacy hit to the canonical key.

Every regex of the pattern table uses only literal runs, `.*` / `.*?`,
alternation of literals, optional groups and the anchors, so the embedding
gives regular expressions a small syntax with exactly those constructs and a
backtracking matcher whose result list is ordered by PCRE priority (the first
element is the match QRegularExpression reports).  Following PCRE defaults,
`.` never matches a newline, and `$` asserts the end of the subject or the
position just before one final newline.
-/

namespace Ksshaskpass

/-- Capture list of one match: group index paired with its captured text.  A
group that did not participate in the match has no entry, matching Qt's null
QString for `captured` of an unset group. -/
abbrev Caps := List (Nat × String)

/-- Regular-expression syntax covering the constructs used by the pattern
table of parsePrompt: the empty expression (used to encode `(...)?`), literal
runs, greedy `.*` and lazy `.*?` (the Bool is true for greedy), concatenation,
prioritized alternation, numbered capture groups and the `$` anchor. -/
inductive RE where
  | eps : RE
  | str : List Char → RE
  | dotstar : Bool → RE
  | seq : RE → RE → RE
  | alt : RE → RE → RE
  | group : Nat → RE → RE
  | endAnchor : RE
  deriving DecidableEq, Repr

/-- Consume the literal run `t` from the front of `s`, returning the rest. -/
def dropPref : List Char → List Char → Option (List Char)
  | [], s => some s
  | _ :: _, [] => none
  | c :: t, d :: s => if c = d then dropPref t s else none

/-- Length of the run of characters before the first newline: the most
characters `.*` may consume, since `.` does not match a newline. -/
def noNlRun : List Char → Nat
  | [] => 0
  | c :: t => if c = '\n' then 0 else noNlRun t + 1

/-- All ways the expression can match a prefix of `s`, each as the remaining
suffix paired with the captures, in PCRE backtracking priority order: a greedy
`.*` lists longer consumptions first, a lazy `.*?` shorter ones, and `a|b`
lists `a` before `b`.  The head of the list is the match PCRE reports. -/
def RE.matchList : RE → List Char → List (List Char × Caps)
  | .eps, s => [(s, [])]
  | .str t, s =>
      match dropPref t s with
      | some r => [(r, [])]
      | none => []
  | .endAnchor, s => if s = [] ∨ s = ['\n'] then [(s, [])] else []
  | .dotstar greedy, s =>
      let ks := List.range (noNlRun s + 1)
      (if greedy then ks.reverse else ks).map (fun k => (s.drop k, []))
  | .seq a b, s =>
      (a.matchList s).flatMap (fun p =>
        (b.matchList p.1).map (fun q => (q.1, p.2 ++ q.2)))
  | .alt a b, s => a.matchList s ++ b.matchList s
  | .group n r, s =>
      (r.matchList s).map (fun p =>
        (p.1, (n, String.mk (s.take (s.length - p.1.length))) :: p.2))

/-- Unanchored search, the leftmost-match rule PCRE applies to a pattern that
does not begin with `^`: try every start offset from left to right and report
the first offset where the pattern matches, with the remaining suffix and the
captures of the best match there. -/
def searchFrom (r : RE) : Nat → List Char → Option (Nat × List Char × Caps)
  | off, [] => (r.matchList []).head?.map (fun p => (off, p.1, p.2))
  | off, c :: t =>
      match (r.matchList (c :: t)).head? with
      | some p => some (off, p.1, p.2)
      | none => searchFrom r (off + 1) t

/-- The enum Type of main.cpp. -/
inductive PromptType where
  | TypePassword
  | TypeClearText
  | TypeConfirm
  deriving DecidableEq, Repr

/-- One branch of parsePrompt: whether its regex begins with `^`, the regex
(its trailing `$` embedded as RE.endAnchor), the capture group the branch
reads the identifier from (none when the branch assigns a null QString), and
the Type and ignoreWallet values it assigns. -/
structure Pattern where
  anchored : Bool
  re : RE
  identGroup : Option Nat
  ptype : PromptType
  ignoreWallet : Bool
  deriving DecidableEq, Repr

/-- Literal run written from a string. -/
def lit (s : String) : RE := .str s.data

/-- Optional group `(...)?`: greedy, so PCRE tries the group before skipping it. -/
def opt (r : RE) : RE := .alt r .eps

/-- Subexpression `(.*@.*)` capturing as group `n`. -/
def atPat (n : Nat) : RE :=
  .group n (.seq (.dotstar true) (.seq (lit "@") (.dotstar true)))

/-- Regex `^(.*@.*)'s password( \(JPAKE\))?: $` (openssh sshconnect2.c). -/
def pat1 : Pattern :=
  { anchored := true
    re := .seq (.seq (atPat 1) (.seq (lit "'s password") (opt (.group 2 (lit " (JPAKE)")))))
          (.seq (lit ": ") .endAnchor)
    identGroup := some 1
    ptype := .TypePassword
    ignoreWallet := false }

/-- Regex `^(Enter|Retype) (.*@.*)'s (old|new) password: $` (password change). -/
def pat2 : Pattern :=
  { anchored := true
    re := .seq (.group 1 (.alt (lit "Enter") (lit "Retype")))
          (.seq (lit " ") (.seq (atPat 2) (.seq (lit "'s ")
            (.seq (.group 3 (.alt (lit "old") (lit "new")))
              (.seq (lit " password: ") .endAnchor)))))
    identGroup := some 2
    ptype := .TypePassword
    ignoreWallet := true }

/-- Regex `^Enter passphrase for( RSA)? key '(.*)': $`. -/
def pat3 : Pattern :=
  { anchored := true
    re := .seq (lit "Enter passphrase for")
          (.seq (opt (.group 1 (lit " RSA")))
            (.seq (lit " key '") (.seq (.group 2 (.dotstar true))
              (.seq (lit "': ") .endAnchor))))
    identGroup := some 2
    ptype := .TypePassword
    ignoreWallet := false }

/-- Regex `^Enter passphrase for (.*?)( \(will confirm each use\))?: $`. -/
def pat4 : Pattern :=
  { anchored := true
    re := .seq (lit "Enter passphrase for ")
          (.seq (.group 1 (.dotstar false))
            (.seq (opt (.group 2 (lit " (will confirm each use)")))
              (.seq (lit ": ") .endAnchor)))
    identGroup := some 1
    ptype := .TypePassword
    ignoreWallet := false }

/-- Regex `^Bad passphrase, try again for (.*?)( \(will confirm each use\))?: $`. -/
def pat5 : Pattern :=
  { anchored := true
    re := .seq (lit "Bad passphrase, try again for ")
          (.seq (.group 1 (.dotstar false))
            (.seq (opt (.group 2 (lit " (will confirm each use)")))
              (.seq (lit ": ") .endAnchor)))
    identGroup := some 1
    ptype := .TypePassword
    ignoreWallet := true }

/-- Regex `Enter PIN for '(.*)': $` (openssh ssh-pkcs11.c).  The source
string carries no `^`, so this is the one pattern matched unanchored. -/
def pat6 : Pattern :=
  { anchored := false
    re := .seq (.seq (lit "Enter PIN for '") (.group 1 (.dotstar true)))
          (.seq (lit "': ") .endAnchor)
    identGroup := some 1
    ptype := .TypePassword
    ignoreWallet := false }

/-- Regex `^(Allow|Terminate) shared connection to (.*)\? $` (openssh mux.c). -/
def pat7 : Pattern :=
  { anchored := true
    re := .seq (.group 1 (.alt (lit "Allow") (lit "Terminate")))
          (.seq (lit " shared connection to ")
            (.seq (.group 2 (.dotstar true)) (.seq (lit "? ") .endAnchor)))
    identGroup := some 2
    ptype := .TypeConfirm
    ignoreWallet := true }

/-- Regex `^Open (.* on .*)?$` (openssh mux.c). -/
def pat8 : Pattern :=
  { anchored := true
    re := .seq (lit "Open ")
          (.seq (opt (.group 1 (.seq (.dotstar true)
            (.seq (lit " on ") (.dotstar true))))) .endAnchor)
    identGroup := some 1
    ptype := .TypeConfirm
    ignoreWallet := true }

/-- Regex `^Allow forward to (.*:.*)\? $` (openssh mux.c). -/
def pat9 : Pattern :=
  { anchored := true
    re := .seq (lit "Allow forward to ")
          (.seq (.group 1 (.seq (.dotstar true) (.seq (lit ":") (.dotstar true))))
            (.seq (lit "? ") .endAnchor))
    identGroup := some 1
    ptype := .TypeConfirm
    ignoreWallet := true }

/-- Regex `^Disable further multiplexing on shared connection to (.*)? $`
(openssh mux.c).  The question mark is not escaped in the source, so it makes
the group optional instead of standing for a literal `?`. -/
def pat10 : Pattern :=
  { anchored := true
    re := .seq (lit "Disable further multiplexing on shared connection to ")
          (.seq (opt (.group 1 (.dotstar true))) (.seq (lit " ") .endAnchor))
    identGroup := some 1
    ptype := .TypeConfirm
    ignoreWallet := true }

/-- Regex `^Allow use of key (.*)?\nKey fingerprint .*\.$` (openssh ssh-agent.c). -/
def pat11 : Pattern :=
  { anchored := true
    re := .seq (lit "Allow use of key ")
          (.seq (opt (.group 1 (.dotstar true)))
            (.seq (lit "\nKey fingerprint ")
              (.seq (.dotstar true) (.seq (lit ".") .endAnchor))))
    identGroup := some 1
    ptype := .TypeConfirm
    ignoreWallet := true }

/-- Regex `^Add key (.*) \(.*\) to agent\?$` (openssh sshconnect.c). -/
def pat12 : Pattern :=
  { anchored := true
    re := .seq (lit "Add key ")
          (.seq (.group 1 (.dotstar true))
            (.seq (lit " (") (.seq (.dotstar true)
              (.seq (lit ") to agent?") .endAnchor))))
    identGroup := some 1
    ptype := .TypeConfirm
    ignoreWallet := true }

/-- Regex `^Password \((.*@.*)\): $` (git imap-send.c). -/
def pat13 : Pattern :=
  { anchored := true
    re := .seq (lit "Password (") (.seq (atPat 1) (.seq (lit "): ") .endAnchor))
    identGroup := some 1
    ptype := .TypePassword
    ignoreWallet := false }

/-- Regex `^Username: $` (git credential.c); the branch assigns a null QString. -/
def pat14 : Pattern :=
  { anchored := true
    re := .seq (lit "Username: ") .endAnchor
    identGroup := none
    ptype := .TypeClearText
    ignoreWallet := true }

/-- Regex `^Password: $` (git credential.c); the branch assigns a null QString. -/
def pat15 : Pattern :=
  { anchored := true
    re := .seq (lit "Password: ") .endAnchor
    identGroup := none
    ptype := .TypePassword
    ignoreWallet := true }

/-- Regex `^Username for '(.*)': $` (git credential.c). -/
def pat16 : Pattern :=
  { anchored := true
    re := .seq (lit "Username for '")
          (.seq (.group 1 (.dotstar true)) (.seq (lit "': ") .endAnchor))
    identGroup := some 1
    ptype := .TypeClearText
    ignoreWallet := false }

/-- Regex `^Password for '(.*)': $` (git credential.c). -/
def pat17 : Pattern :=
  { anchored := true
    re := .seq (lit "Password for '")
          (.seq (.group 1 (.dotstar true)) (.seq (lit "': ") .endAnchor))
    identGroup := some 1
    ptype := .TypePassword
    ignoreWallet := false }

/-- Regex `^Username for \"(.*?)\"$` (git-lfs). -/
def pat18 : Pattern :=
  { anchored := true
    re := .seq (lit "Username for \"")
          (.seq (.group 1 (.dotstar false)) (.seq (lit "\"") .endAnchor))
    identGroup := some 1
    ptype := .TypeClearText
    ignoreWallet := false }

/-- Regex `^Password for \"(.*?)\"$` (git-lfs). -/
def pat19 : Pattern :=
  { anchored := true
    re := .seq (lit "Password for \"")
          (.seq (.group 1 (.dotstar false)) (.seq (lit "\"") .endAnchor))
    identGroup := some 1
    ptype := .TypePassword
    ignoreWallet := false }

/-- Regex `^(.*?)'s password: $` (mercurial, bug 380085). -/
def pat20 : Pattern :=
  { anchored := true
    re := .seq (.group 1 (.dotstar false)) (.seq (lit "'s password: ") .endAnchor)
    identGroup := some 1
    ptype := .TypePassword
    ignoreWallet := false }

/-- The pattern table of parsePrompt, in source order (first match wins). -/
def patternTable : List Pattern :=
  [pat1, pat2, pat3, pat4, pat5, pat6, pat7, pat8, pat9, pat10,
   pat11, pat12, pat13, pat14, pat15, pat16, pat17, pat18, pat19, pat20]

/-- Run one pattern the way QRegularExpression.match does: a pattern whose
source begins with `^` matches only at offset 0; the unanchored one is
searched at every offset, leftmost first.  The result carries the match's
start offset, the suffix left after it and the captures. -/
def Pattern.tryMatch (p : Pattern) (s : List Char) : Option (Nat × List Char × Caps) :=
  if p.anchored then (p.re.matchList s).head?.map (fun q => (0, q.1, q.2))
  else searchFrom p.re 0 s

/-- match.captured(n): the text of group n, none when the group did not
participate in the match (Qt returns a null QString there). -/
def capLookup (n : Nat) : Caps → Option String
  | [] => none
  | (m, v) :: rest => if m = n then some v else capLookup n rest

/-- The three reference parameters of parsePrompt after it returns, together
with the diagnostic it may emit (qCWarning carrying the raw prompt when no
pattern matched). -/
structure ParseResult where
  identifier : Option String
  ignoreWallet : Bool
  ptype : PromptType
  diagnostic : Option String
  deriving DecidableEq, Repr

/-- First pattern of the list that matches the prompt, with its captures. -/
def runPatterns : List Pattern → List Char → Option (Pattern × Caps)
  | [], _ => none
  | p :: rest, s =>
      match p.tryMatch s with
      | some q => some (p, q.2.2)
      | none => runPatterns rest s

/-- parsePrompt of main.cpp: the first matching pattern assigns the
identifier (from its capture group, or a null QString), the type and
ignoreWallet and returns; when nothing matches the three reference parameters
keep their incoming values and a warning carrying the raw prompt is issued. -/
def parsePrompt (prompt : String) (identifier0 : Option String)
    (ignoreWallet0 : Bool) (type0 : PromptType) : ParseResult :=
  match runPatterns patternTable prompt.data with
  | some (p, caps) =>
      { identifier :=
          match p.identGroup with
          | some n => capLookup n caps
          | none => none
        ignoreWallet := p.ignoreWallet
        ptype := p.ptype
        diagnostic := none }
  | none =>
      { identifier := identifier0
        ignoreWallet := ignoreWallet0
        ptype := type0
        diagnostic := some prompt }

/-- parsePrompt as main invokes it at line 279: identifier starts as a null
QString, ignoreWallet as false and type as TypePassword (lines 271-274). -/
def classify (prompt : String) : ParseResult :=
  parsePrompt prompt none false .TypePassword

/-- allow_store_lookup of the specification is the negation of the code's
ignoreWallet flag. -/
def ParseResult.allowStoreLookup (r : ParseResult) : Bool := !r.ignoreWallet

/-- Lookup in one folder's entries: the first binding of the key. -/
def lookupEntry (k : String) : List (String × String) → Option String
  | [] => none
  | (k2, v) :: rest => if k2 = k then some v else lookupEntry k rest

/-- Remove every binding of the key, so the association list behaves as the
keyed map the wallet is. -/
def eraseEntry (k : String) : List (String × String) → List (String × String)
  | [] => []
  | e :: rest => if e.1 = k then eraseEntry k rest else e :: eraseEntry k rest

/-- Bind the key to the value, replacing any previous binding. -/
def setEntry (k v : String) (l : List (String × String)) : List (String × String) :=
  eraseEntry k l ++ [(k, v)]

/-- The opaque KWallet store: named folders, each a keyed map from identifier
to secret, represented by association lists. -/
structure Wallet where
  folders : List (String × List (String × String))
  deriving DecidableEq, Repr

/-- Entries of the named folder, when it exists. -/
def lookupFolder (f : String) :
    List (String × List (String × String)) → Option (List (String × String))
  | [] => none
  | (g, es) :: rest => if g = f then some es else lookupFolder f rest

/-- wallet->hasFolder. -/
def Wallet.hasFolder (w : Wallet) (f : String) : Bool :=
  (lookupFolder f w.folders).isSome

/-- wallet->readPassword into an empty out-string: the stored value, or the
empty string when the folder or the entry is missing (the code only ever
tests the result for emptiness). -/
def Wallet.readPassword (w : Wallet) (f key : String) : String :=
  match lookupFolder f w.folders with
  | some es => (lookupEntry key es).getD ""
  | none => ""

/-- Apply an update to the named folder's entries, leaving other folders as
they are. -/
def updateFolder (f : String) (upd : List (String × String) → List (String × String)) :
    List (String × List (String × String)) → List (String × List (String × String))
  | [] => []
  | (g, es) :: rest =>
      if g = f then (g, upd es) :: rest else (g, es) :: updateFolder f upd rest

/-- wallet->renameEntry oldKey newKey: move the value bound to oldKey to
newKey, replacing any previous binding of newKey; without a binding of oldKey
nothing changes. -/
def Wallet.renameEntry (w : Wallet) (f oldKey newKey : String) : Wallet :=
  { folders := updateFolder f (fun es =>
      match lookupEntry oldKey es with
      | some v => setEntry newKey v (eraseEntry oldKey es)
      | none => es) w.folders }

/-- wallet->writePassword in the named folder. -/
def Wallet.writePassword (w : Wallet) (f key value : String) : Wallet :=
  { folders := updateFolder f (setEntry key value) w.folders }

/-- wallet->createFolder: append an empty folder (main calls it only after
hasFolder returned false). -/
def Wallet.createFolder (w : Wallet) (f : String) : Wallet :=
  { folders := w.folders ++ [(f, [])] }

/-- The legacy key templates of main.cpp line 295 applied to the identifier,
in source order: "'%0'", "%0 ", "'%0' ". -/
def legacyVariants (identifier : String) : List String :=
  ["'" ++ identifier ++ "'", identifier ++ " ", "'" ++ identifier ++ "' "]

/-- Result of the wallet lookup phase: the item read (empty when nothing was
found), the wallet handle as it stands afterwards (none when it was never
opened), and the keys passed to readPassword, in call order. -/
structure ResolveOut where
  item : String
  wallet : Option Wallet
  reads : List String
  deriving DecidableEq, Repr

/-- The loop of main.cpp lines 295-303: read each legacy key while the item
stays empty; the first non-empty read renames that key to the canonical
identifier and stops the loop. -/
def legacyLoop (w : Wallet) (folder identifier : String) : List String → ResolveOut
  | [] => { item := "", wallet := some w, reads := [] }
  | k :: rest =>
      let item := w.readPassword folder k
      if item = "" then
        let r := legacyLoop w folder identifier rest
        { item := r.item, wallet := r.wallet, reads := k :: r.reads }
      else
        { item := item, wallet := some (w.renameEntry folder k identifier), reads := [k] }

/-- Lines 282-305 of main.cpp: the wallet handle is null when ignoreWallet is
set (line 283; a failed open is modelled by walletAvail = none); under the
guard of line 285 the canonical identifier is read first, and the legacy
variants are probed only when that read came back empty. -/
def resolve (identifier : Option String) (ignoreWallet : Bool)
    (walletAvail : Option Wallet) (walletFolder : String) : ResolveOut :=
  let wallet : Option Wallet := if ignoreWallet then none else walletAvail
  match wallet, identifier with
  | some w, some ident =>
      if ignoreWallet = false ∧ w.hasFolder walletFolder = true then
        let item := w.readPassword walletFolder ident
        if item = "" then
          let r := legacyLoop w walletFolder ident (legacyVariants ident)
          { item := r.item, wallet := r.wallet, reads := ident :: r.reads }
        else
          { item := item, wallet := some w, reads := [ident] }
      else
        { item := "", wallet := some w, reads := [] }
  | w, _ => { item := "", wallet := w, reads := [] }

/-- Outcome reported by the presentation layer (KPasswordDialog, or the
KMessageBox question for confirmations): cancelled, or accepted with the
typed value and the state of the Keep checkbox. -/
inductive DialogResult where
  | cancelled : DialogResult
  | accepted : String → Bool → DialogResult
  deriving DecidableEq, Repr

/-- Observable outcome of one run of main: the exit code, the bytes written
to stdout, and the wallet as it stands at exit. -/
structure MainOut where
  exitCode : Nat
  stdout : String
  wallet : Option Wallet
  deriving DecidableEq, Repr

/-- Classification as main performs it: the positional argument is parsed
when present; without one the defaults of lines 271-274 stand and the pattern
table is never evaluated. -/
def classifyArg : Option String → ParseResult
  | some prompt => classify prompt
  | none =>
      { identifier := none, ignoreWallet := false
        ptype := .TypePassword, diagnostic := none }

/-- The wallet lookup main performs for the given prompt argument. -/
def mainResolve (promptArg : Option String) (walletAvail : Option Wallet)
    (walletFolder : String) : ResolveOut :=
  let pr := classifyArg promptArg
  resolve pr.identifier pr.ignoreWallet walletAvail walletFolder

/-- main.cpp after argument parsing: resolve against the wallet; a non-empty
item is printed without a trailing newline and the process exits 0 (lines
307-310); otherwise the dialog runs — cancellation exits 1 printing nothing,
an accepted confirmation makes the item the fixed "yes\n", an accepted secret
is stored under the identifier when Keep was ticked and a wallet is open —
and the item is printed with "\n" appended (lines 369-371). -/
def mainRun (promptArg : Option String) (walletAvail : Option Wallet)
    (dialog : DialogResult) (walletFolder : String) : MainOut :=
  let pr := classifyArg promptArg
  let r := mainResolve promptArg walletAvail walletFolder
  if r.item ≠ "" then
    { exitCode := 0, stdout := r.item, wallet := r.wallet }
  else
    match pr.ptype with
    | .TypeConfirm =>
        match dialog with
        | .cancelled => { exitCode := 1, stdout := "", wallet := r.wallet }
        | .accepted _ _ =>
            { exitCode := 0, stdout := "yes\n" ++ "\n", wallet := r.wallet }
    | _ =>
        match dialog with
        | .cancelled => { exitCode := 1, stdout := "", wallet := r.wallet }
        | .accepted value keep =>
            let wOut : Option Wallet :=
              match r.wallet, pr.identifier with
              | some w, some ident =>
                  if keep then
                    let w1 := if w.hasFolder walletFolder then w
                              else w.createFolder walletFolder
                    some (w1.writePassword walletFolder ident value)
                  else some w
              | w, _ => w
            { exitCode := 0, stdout := value ++ "\n", wallet := wOut }

/-- Whether the named folder holds an entry under the key (a KWallet query;
readPassword cannot tell a missing entry from a stored empty secret, this
can). -/
def Wallet.hasEntry (w : Wallet) (f key : String) : Bool :=
  match lookupFolder f w.folders with
  | some es => (lookupEntry key es).isSome
  | none => false

/-! Association-list laws: the entry maps behave as keyed maps. -/

theorem lookupEntry_eraseEntry_self (k : String) (l : List (String × String)) :
    lookupEntry k (eraseEntry k l) = none := by
  induction l with
  | nil => rfl
  | cons e rest ih =>
      obtain ⟨a, b⟩ := e
      by_cases h : a = k
      · simpa [eraseEntry, h] using ih
      · simpa [eraseEntry, lookupEntry, h] using ih

theorem lookupEntry_eraseEntry_ne (k2 k : String) (l : List (String × String))
    (h : k2 ≠ k) : lookupEntry k2 (eraseEntry k l) = lookupEntry k2 l := by
  induction l with
  | nil => rfl
  | cons e rest ih =>
      obtain ⟨a, b⟩ := e
      by_cases he : a = k
      · have h2 : ¬a = k2 := fun hk => h (hk.symm.trans he)
        calc lookupEntry k2 (eraseEntry k ((a, b) :: rest))
            = lookupEntry k2 (eraseEntry k rest) := by simp [eraseEntry, he]
          _ = lookupEntry k2 rest := ih
          _ = lookupEntry k2 ((a, b) :: rest) := by simp [lookupEntry, h2]
      · have hkeep : eraseEntry k ((a, b) :: rest) = (a, b) :: eraseEntry k rest := by
          simp [eraseEntry, he]
        rw [hkeep]
        by_cases h2 : a = k2
        · simp [lookupEntry, h2]
        · simp [lookupEntry, h2, ih]

theorem lookupEntry_append (k : String) (l1 l2 : List (String × String)) :
    lookupEntry k (l1 ++ l2) =
      match lookupEntry k l1 with
      | some v => some v
      | none => lookupEntry k l2 := by
  induction l1 with
  | nil => simp [lookupEntry]
  | cons e rest ih =>
      obtain ⟨a, b⟩ := e
      by_cases h : a = k <;> simp [lookupEntry, h, ih]

theorem lookupEntry_setEntry (k2 k v : String) (l : List (String × String)) :
    lookupEntry k2 (setEntry k v l) =
      if k2 = k then some v else lookupEntry k2 l := by
  by_cases h : k2 = k
  · subst h
    simp [setEntry, lookupEntry_append, lookupEntry_eraseEntry_self, lookupEntry]
  · have h' : ¬k = k2 := fun hk => h hk.symm
    rw [setEntry, lookupEntry_append, lookupEntry_eraseEntry_ne k2 k l h, if_neg h]
    cases lookupEntry k2 l <;> simp [lookupEntry, h']

theorem lookupFolder_updateFolder_self (f : String)
    (upd : List (String × String) → List (String × String))
    (fs : List (String × List (String × String))) :
    lookupFolder f (updateFolder f upd fs) = (lookupFolder f fs).map upd := by
  induction fs with
  | nil => rfl
  | cons e rest ih =>
      by_cases h : e.1 = f
      · simp [updateFolder, lookupFolder, h]
      · simpa [updateFolder, lookupFolder, h] using ih

/-- The rename performed on a legacy hit: the value moves to the new key, the
old key is gone, every other key of the folder is untouched. -/
theorem renameEntry_spec (w : Wallet) (folder oldKey newKey v : String)
    (es : List (String × String))
    (hes : lookupFolder folder w.folders = some es)
    (hv : lookupEntry oldKey es = some v)
    (hne : oldKey ≠ newKey) :
    (w.renameEntry folder oldKey newKey).readPassword folder newKey = v ∧
    (w.renameEntry folder oldKey newKey).hasEntry folder oldKey = false ∧
    ∀ k, k ≠ oldKey → k ≠ newKey →
      (w.renameEntry folder oldKey newKey).readPassword folder k =
        w.readPassword folder k := by
  have hfold : lookupFolder folder (w.renameEntry folder oldKey newKey).folders =
      some (setEntry newKey v (eraseEntry oldKey es)) := by
    simp [Wallet.renameEntry, lookupFolder_updateFolder_self, hes, hv]
  refine ⟨?_, ?_, ?_⟩
  · simp [Wallet.readPassword, hfold, lookupEntry_setEntry]
  · have : lookupEntry oldKey (setEntry newKey v (eraseEntry oldKey es)) = none := by
      rw [lookupEntry_setEntry, if_neg hne, lookupEntry_eraseEntry_self]
    simp [Wallet.hasEntry, hfold, this]
  · intro k hko hkn
    simp [Wallet.readPassword, hfold, hes, lookupEntry_setEntry, hkn,
      lookupEntry_eraseEntry_ne k oldKey es hko]

/-- readPassword finds exactly the first-probed legacy binding it returns. -/
theorem readPassword_eq_of_lookup (w : Wallet) (folder key v : String)
    (es : List (String × String))
    (hes : lookupFolder folder w.folders = some es)
    (hv : lookupEntry key es = some v) :
    w.readPassword folder key = v := by
  simp [Wallet.readPassword, hes, hv]

/-- A non-empty readPassword result is a stored binding. -/
theorem lookup_of_readPassword_ne (w : Wallet) (folder key : String)
    (es : List (String × String))
    (hes : lookupFolder folder w.folders = some es)
    (h : w.readPassword folder key ≠ "") :
    lookupEntry key es = some (w.readPassword folder key) := by
  simp only [Wallet.readPassword, hes] at h ⊢
  cases hl : lookupEntry key es with
  | none => simp [hl] at h
  | some v => simp [hl]

/-- The identifier differs from each of its legacy spellings (they are longer). -/
theorem ident_ne_variants (i : String) :
    i ≠ "'" ++ i ++ "'" ∧ i ≠ i ++ " " ∧ i ≠ "'" ++ i ++ "' " := by
  have h1 : "'".length = 1 := rfl
  have h2 : " ".length = 1 := rfl
  have h3 : "' ".length = 2 := rfl
  refine ⟨?_, ?_, ?_⟩ <;> intro h <;>
    have := congrArg String.length h <;>
    simp only [String.length_append, h1, h2, h3] at this <;> omega

/-! Claim C1: order and short-circuit of the legacy probes. -/

/-- C1: when the canonical read returns empty, resolve probes the three
legacy key variants in the fixed source order — quoted, trailing space,
quoted with trailing space — stopping at the first variant whose read yields
a non-empty secret and returning that secret (empty when all three miss). -/
theorem legacy_probe_order (w : Wallet) (folder ident : String)
    (hfold : w.hasFolder folder = true)
    (hempty : w.readPassword folder ident = "") :
    (w.readPassword folder ("'" ++ ident ++ "'") ≠ "" →
      (resolve (some ident) false (some w) folder).reads
          = [ident, "'" ++ ident ++ "'"] ∧
      (resolve (some ident) false (some w) folder).item
          = w.readPassword folder ("'" ++ ident ++ "'")) ∧
    (w.readPassword folder ("'" ++ ident ++ "'") = "" →
     w.readPassword folder (ident ++ " ") ≠ "" →
      (resolve (some ident) false (some w) folder).reads
          = [ident, "'" ++ ident ++ "'", ident ++ " "] ∧
      (resolve (some ident) false (some w) folder).item
          = w.readPassword folder (ident ++ " ")) ∧
    (w.readPassword folder ("'" ++ ident ++ "'") = "" →
     w.readPassword folder (ident ++ " ") = "" →
     w.readPassword folder ("'" ++ ident ++ "' ") ≠ "" →
      (resolve (some ident) false (some w) folder).reads
          = [ident, "'" ++ ident ++ "'", ident ++ " ", "'" ++ ident ++ "' "] ∧
      (resolve (some ident) false (some w) folder).item
          = w.readPassword folder ("'" ++ ident ++ "' ")) ∧
    (w.readPassword folder ("'" ++ ident ++ "'") = "" →
     w.readPassword folder (ident ++ " ") = "" →
     w.readPassword folder ("'" ++ ident ++ "' ") = "" →
      (resolve (some ident) false (some w) folder).reads
          = [ident, "'" ++ ident ++ "'", ident ++ " ", "'" ++ ident ++ "' "] ∧
      (resolve (some ident) false (some w) folder).item = "") := by
  refine ⟨fun h1 => ?_, fun h1 h2 => ?_, fun h1 h2 h3 => ?_, fun h1 h2 h3 => ?_⟩ <;>
    simp [resolve, hfold, hempty, legacyVariants, legacyLoop, h1] <;>
    simp [*]

/-- Witness for C1 at a store holding only the trailing-space spelling. -/
def walletC1 : Wallet := ⟨[("f", [("alice ", "B")])]⟩

theorem legacy_probe_order_witness :
    (walletC1.readPassword "f" ("'" ++ "alice" ++ "'") ≠ "" →
      (resolve (some "alice") false (some walletC1) "f").reads
          = ["alice", "'" ++ "alice" ++ "'"] ∧
      (resolve (some "alice") false (some walletC1) "f").item
          = walletC1.readPassword "f" ("'" ++ "alice" ++ "'")) ∧
    (walletC1.readPassword "f" ("'" ++ "alice" ++ "'") = "" →
     walletC1.readPassword "f" ("alice" ++ " ") ≠ "" →
      (resolve (some "alice") false (some walletC1) "f").reads
          = ["alice", "'" ++ "alice" ++ "'", "alice" ++ " "] ∧
      (resolve (some "alice") false (some walletC1) "f").item
          = walletC1.readPassword "f" ("alice" ++ " ")) ∧
    (walletC1.readPassword "f" ("'" ++ "alice" ++ "'") = "" →
     walletC1.readPassword "f" ("alice" ++ " ") = "" →
     walletC1.readPassword "f" ("'" ++ "alice" ++ "' ") ≠ "" →
      (resolve (some "alice") false (some walletC1) "f").reads
          = ["alice", "'" ++ "alice" ++ "'", "alice" ++ " ", "'" ++ "alice" ++ "' "] ∧
      (resolve (some "alice") false (some walletC1) "f").item
          = walletC1.readPassword "f" ("'" ++ "alice" ++ "' ")) ∧
    (walletC1.readPassword "f" ("'" ++ "alice" ++ "'") = "" →
     walletC1.readPassword "f" ("alice" ++ " ") = "" →
     walletC1.readPassword "f" ("'" ++ "alice" ++ "' ") = "" →
      (resolve (some "alice") false (some walletC1) "f").reads
          = ["alice", "'" ++ "alice" ++ "'", "alice" ++ " ", "'" ++ "alice" ++ "' "] ∧
      (resolve (some "alice") false (some walletC1) "f").item = "") :=
  legacy_probe_order walletC1 "f" "alice" (by decide) (by decide)

/-! Claim C2: which legacy variant wins when several exist. -/

/-- Fixture for C2: both the quoted and the trailing-space spelling exist,
with different values, and the canonical key is absent. -/
def walletC2 : Wallet := ⟨[("f", [("'alice'", "A"), ("alice ", "B")])]⟩

/-- C2 counterexample: the claim says the trailing-space variant ("B") wins,
but the code probes the quoted variant first and returns "A". -/
theorem trailing_space_variant_does_not_win :
    (resolve (some "alice") false (some walletC2) "f").item = "A" ∧
    (resolve (some "alice") false (some walletC2) "f").item ≠ "B" := by
  decide

/-- C2 amended: with canonical absent, the single-quoted variant wins
whenever it is non-empty — it is probed first, before the trailing-space
variant is even read. -/
theorem quoted_variant_probed_first (w : Wallet) (folder ident : String)
    (hfold : w.hasFolder folder = true)
    (hempty : w.readPassword folder ident = "")
    (hq : w.readPassword folder ("'" ++ ident ++ "'") ≠ "") :
    (resolve (some ident) false (some w) folder).item
        = w.readPassword folder ("'" ++ ident ++ "'") ∧
    (resolve (some ident) false (some w) folder).reads
        = [ident, "'" ++ ident ++ "'"] := by
  simp [resolve, hfold, hempty, legacyVariants, legacyLoop, hq]

theorem quoted_variant_probed_first_witness :
    (resolve (some "alice") false (some walletC2) "f").item
        = walletC2.readPassword "f" ("'" ++ "alice" ++ "'") ∧
    (resolve (some "alice") false (some walletC2) "f").reads
        = ["alice", "'" ++ "alice" ++ "'"] :=
  quoted_variant_probed_first walletC2 "f" "alice" (by decide) (by decide) (by decide)

/-! Claim C7: the guard that skips the lookup entirely. -/

/-- C7: when the wallet could not be opened, or the identifier is a null
QString, or ignoreWallet is set (allow_store_lookup false), or the wallet has
no folder of the given name, resolve does not read the store at all and
returns an empty item, leaving the handle as it was. -/
theorem resolve_guard_no_lookup (identifier : Option String) (ignoreWallet : Bool)
    (walletAvail : Option Wallet) (walletFolder : String)
    (h : walletAvail = none ∨ identifier = none ∨ ignoreWallet = true ∨
        ∀ w, walletAvail = some w → w.hasFolder walletFolder = false) :
    resolve identifier ignoreWallet walletAvail walletFolder =
      { item := "", reads := [],
        wallet := if ignoreWallet then none else walletAvail } := by
  cases ignoreWallet with
  | true => simp [resolve]
  | false =>
      cases walletAvail with
      | none => simp [resolve]
      | some w =>
          cases identifier with
          | none => simp [resolve]
          | some ident =>
              have hfold : w.hasFolder walletFolder = false := by
                rcases h with h | h | h | h
                · simp at h
                · simp at h
                · simp at h
                · exact h w rfl
              simp [resolve, hfold]

theorem resolve_guard_no_lookup_witness :
    resolve none false none "ksshaskpass" =
      { item := "", reads := [], wallet := none } := by
  have h := resolve_guard_no_lookup none false none "ksshaskpass" (Or.inl rfl)
  simpa using h

/-! Claim C8: migration of a legacy hit to the canonical key. -/

/-- Fixture for the C8 counterexample: two distinct legacy spellings hold
different live values and the canonical key is absent. -/
def walletC8 : Wallet := ⟨[("f", [("'alice'", "x"), ("alice ", "y")])]⟩

/-- C8 counterexample: after the quoted-variant hit is renamed, the
trailing-space legacy entry is still live next to the canonical one, so the
store does end up with a canonical and a legacy form holding independent
values for the same credential. -/
theorem rename_leaves_other_variant_live :
    (resolve (some "alice") false (some walletC8) "f").item = "x" ∧
    ((resolve (some "alice") false (some walletC8) "f").wallet.getD
        ⟨[]⟩).readPassword "f" "alice" = "x" ∧
    ((resolve (some "alice") false (some walletC8) "f").wallet.getD
        ⟨[]⟩).hasEntry "f" "alice " = true ∧
    ((resolve (some "alice") false (some walletC8) "f").wallet.getD
        ⟨[]⟩).readPassword "f" "alice " = "y" ∧
    ("x" : String) ≠ "y" := by
  decide

/-- C8 amended: a legacy hit is returned and renamed onto the canonical
identifier — the hit key disappears and the canonical key owns the value —
while every other key of the folder, in particular any other legacy variant
that also exists, is left exactly as it was (so such a variant stays live
next to the canonical entry). -/
theorem legacy_hit_renamed_to_canonical (w : Wallet) (folder ident : String)
    (hfold : w.hasFolder folder = true)
    (hempty : w.readPassword folder ident = "") :
    (w.readPassword folder ("'" ++ ident ++ "'") ≠ "" →
      resolve (some ident) false (some w) folder =
        { item := w.readPassword folder ("'" ++ ident ++ "'"),
          wallet := some (w.renameEntry folder ("'" ++ ident ++ "'") ident),
          reads := [ident, "'" ++ ident ++ "'"] } ∧
      (w.renameEntry folder ("'" ++ ident ++ "'") ident).readPassword folder ident
          = w.readPassword folder ("'" ++ ident ++ "'") ∧
      (w.renameEntry folder ("'" ++ ident ++ "'") ident).hasEntry folder
          ("'" ++ ident ++ "'") = false ∧
      ∀ k, k ≠ "'" ++ ident ++ "'" → k ≠ ident →
        (w.renameEntry folder ("'" ++ ident ++ "'") ident).readPassword folder k
            = w.readPassword folder k) ∧
    (w.readPassword folder ("'" ++ ident ++ "'") = "" →
     w.readPassword folder (ident ++ " ") ≠ "" →
      resolve (some ident) false (some w) folder =
        { item := w.readPassword folder (ident ++ " "),
          wallet := some (w.renameEntry folder (ident ++ " ") ident),
          reads := [ident, "'" ++ ident ++ "'", ident ++ " "] } ∧
      (w.renameEntry folder (ident ++ " ") ident).readPassword folder ident
          = w.readPassword folder (ident ++ " ") ∧
      (w.renameEntry folder (ident ++ " ") ident).hasEntry folder
          (ident ++ " ") = false ∧
      ∀ k, k ≠ ident ++ " " → k ≠ ident →
        (w.renameEntry folder (ident ++ " ") ident).readPassword folder k
            = w.readPassword folder k) ∧
    (w.readPassword folder ("'" ++ ident ++ "'") = "" →
     w.readPassword folder (ident ++ " ") = "" →
     w.readPassword folder ("'" ++ ident ++ "' ") ≠ "" →
      resolve (some ident) false (some w) folder =
        { item := w.readPassword folder ("'" ++ ident ++ "' "),
          wallet := some (w.renameEntry folder ("'" ++ ident ++ "' ") ident),
          reads := [ident, "'" ++ ident ++ "'", ident ++ " ", "'" ++ ident ++ "' "] } ∧
      (w.renameEntry folder ("'" ++ ident ++ "' ") ident).readPassword folder ident
          = w.readPassword folder ("'" ++ ident ++ "' ") ∧
      (w.renameEntry folder ("'" ++ ident ++ "' ") ident).hasEntry folder
          ("'" ++ ident ++ "' ") = false ∧
      ∀ k, k ≠ "'" ++ ident ++ "' " → k ≠ ident →
        (w.renameEntry folder ("'" ++ ident ++ "' ") ident).readPassword folder k
            = w.readPassword folder k) := by
  obtain ⟨es, hes⟩ : ∃ es, lookupFolder folder w.folders = some es := by
    have h := hfold
    unfold Wallet.hasFolder at h
    exact Option.isSome_iff_exists.mp h
  have hne := ident_ne_variants ident
  refine ⟨fun hq => ?_, fun hq ht => ?_, fun hq ht hqt => ?_⟩
  · have hv := lookup_of_readPassword_ne w folder ("'" ++ ident ++ "'") es hes hq
    have hspec := renameEntry_spec w folder ("'" ++ ident ++ "'") ident
      (w.readPassword folder ("'" ++ ident ++ "'")) es hes hv (Ne.symm hne.1)
    refine ⟨?_, hspec.1, hspec.2.1, hspec.2.2⟩
    simp [resolve, hfold, hempty, legacyVariants, legacyLoop, hq]
  · have hv := lookup_of_readPassword_ne w folder (ident ++ " ") es hes ht
    have hspec := renameEntry_spec w folder (ident ++ " ") ident
      (w.readPassword folder (ident ++ " ")) es hes hv (Ne.symm hne.2.1)
    refine ⟨?_, hspec.1, hspec.2.1, hspec.2.2⟩
    simp [resolve, hfold, hempty, legacyVariants, legacyLoop, hq, ht]
  · have hv := lookup_of_readPassword_ne w folder ("'" ++ ident ++ "' ") es hes hqt
    have hspec := renameEntry_spec w folder ("'" ++ ident ++ "' ") ident
      (w.readPassword folder ("'" ++ ident ++ "' ")) es hes hv (Ne.symm hne.2.2)
    refine ⟨?_, hspec.1, hspec.2.1, hspec.2.2⟩
    simp [resolve, hfold, hempty, legacyVariants, legacyLoop, hq, ht, hqt]

/-- Fixture for the C8 witness: the store of the specification's own
example, holding only the quoted spelling. -/
def walletC8W : Wallet := ⟨[("f", [("'alice'", "s3cret")])]⟩

theorem legacy_hit_renamed_to_canonical_witness :
    resolve (some "alice") false (some walletC8W) "f" =
      { item := "s3cret",
        wallet := some (walletC8W.renameEntry "f" ("'" ++ "alice" ++ "'") "alice"),
        reads := ["alice", "'" ++ "alice" ++ "'"] } ∧
    (walletC8W.renameEntry "f" ("'" ++ "alice" ++ "'") "alice").readPassword "f" "alice"
        = "s3cret" ∧
    (walletC8W.renameEntry "f" ("'" ++ "alice" ++ "'") "alice").hasEntry "f"
        ("'" ++ "alice" ++ "'") = false := by
  have h := (legacy_hit_renamed_to_canonical walletC8W "f" "alice"
    (by decide) (by decide)).1 (by decide)
  exact ⟨h.1.trans (by decide), h.2.1.trans (by decide), h.2.2.1⟩

/-! Claim C10: a canonical hit leaves the store untouched. -/

/-- C10: when the canonical read is non-empty, resolve returns it, reads no
legacy variant (the read log is just the identifier) and performs no rename:
the wallet handle comes back exactly as it went in, so every legacy entry is
unchanged. -/
theorem canonical_hit_short_circuit (w : Wallet) (folder ident : String)
    (hfold : w.hasFolder folder = true)
    (hne : w.readPassword folder ident ≠ "") :
    resolve (some ident) false (some w) folder =
      { item := w.readPassword folder ident, wallet := some w, reads := [ident] } := by
  simp [resolve, hfold, hne]

/-- Fixture for the C10 witness: canonical and quoted legacy entries both
present. -/
def walletC10 : Wallet := ⟨[("f", [("alice", "C"), ("'alice'", "A")])]⟩

theorem canonical_hit_short_circuit_witness :
    resolve (some "alice") false (some walletC10) "f" =
      { item := "C", wallet := some walletC10, reads := ["alice"] } :=
  (canonical_hit_short_circuit walletC10 "f" "alice" (by decide) (by decide)).trans
    (by decide)

/-! Laws of the first-match scan over the pattern table. -/

theorem runPatterns_mem (l : List Pattern) (s : List Char) (p : Pattern) (caps : Caps)
    (h : runPatterns l s = some (p, caps)) : p ∈ l := by
  induction l with
  | nil => simp [runPatterns] at h
  | cons q rest ih =>
      simp only [runPatterns] at h
      cases hm : q.tryMatch s with
      | some x =>
          rw [hm] at h
          simp only [Option.some.injEq] at h
          have : q = p := congrArg Prod.fst h
          exact this ▸ List.mem_cons_self q rest
      | none =>
          rw [hm] at h
          exact List.mem_cons_of_mem q (ih h)

theorem runPatterns_eq_none_iff (l : List Pattern) (s : List Char) :
    runPatterns l s = none ↔ ∀ p ∈ l, p.tryMatch s = none := by
  induction l with
  | nil => simp [runPatterns]
  | cons q rest ih =>
      simp only [runPatterns]
      cases hm : q.tryMatch s with
      | some x => simp [hm]
      | none => simpa [hm] using ih

/-- Every pattern of the table that classifies as a confirmation also sets
ignoreWallet, so a confirmation prompt never opens the wallet. -/
theorem classifyArg_confirm_ignoreWallet (promptArg : Option String)
    (h : (classifyArg promptArg).ptype = PromptType.TypeConfirm) :
    (classifyArg promptArg).ignoreWallet = true := by
  cases promptArg with
  | none => simp [classifyArg] at h
  | some prompt =>
      simp only [classifyArg, classify, parsePrompt] at h ⊢
      cases hr : runPatterns patternTable prompt.data with
      | none => rw [hr] at h; simp at h
      | some pc =>
          obtain ⟨p, caps⟩ := pc
          rw [hr] at h
          simp at h ⊢
          have hp : p ∈ patternTable := runPatterns_mem _ _ _ _ hr
          have htab : ∀ q ∈ patternTable,
              q.ptype = PromptType.TypeConfirm → q.ignoreWallet = true := by decide
          exact htab p hp h

/-! Claim C3: classification of an unrecognized prompt. -/

/-- C3 counterexample: "garbage" matches nothing, classifies to SecretHidden
with no identifier and emits the diagnostic — but ignoreWallet keeps its
initial false, so allow_store_lookup is true, not the false the claim
states. -/
theorem unmatched_prompt_allows_lookup :
    (classify "garbage").identifier = none ∧
    (classify "garbage").ptype = PromptType.TypePassword ∧
    (classify "garbage").diagnostic = some "garbage" ∧
    (classify "garbage").allowStoreLookup ≠ false := by
  decide

/-- C3 amended: a prompt matching no pattern classifies to the caller's
defaults — SecretHidden, no identifier — and emits the diagnostic carrying
the raw prompt, with no exception and no state change; but ignoreWallet stays
at its initial false, so allow_store_lookup is true (no lookup happens anyway,
since the identifier is absent). -/
theorem unmatched_prompt_defaults (prompt : String)
    (h : ∀ p ∈ patternTable, p.tryMatch prompt.data = none) :
    classify prompt =
      { identifier := none, ignoreWallet := false,
        ptype := PromptType.TypePassword, diagnostic := some prompt } ∧
    (classify prompt).allowStoreLookup = true := by
  have hr : runPatterns patternTable prompt.data = none :=
    (runPatterns_eq_none_iff _ _).mpr h
  constructor
  · simp [classify, parsePrompt, hr]
  · simp [classify, parsePrompt, hr, ParseResult.allowStoreLookup]

theorem unmatched_prompt_defaults_witness :
    classify "garbage" =
      { identifier := none, ignoreWallet := false,
        ptype := PromptType.TypePassword, diagnostic := some "garbage" } ∧
    (classify "garbage").allowStoreLookup = true :=
  unmatched_prompt_defaults "garbage" (by decide)

/-! Claim C6: trailing-newline behaviour of the two output paths. -/

/-- C6: the vault-resolved path writes the secret with no trailing newline
and exits 0; the freshly-collected path writes the collected item ("yes\n"
for confirmations, else the typed value) followed by exactly one newline and
exits 0; cancellation exits 1 writing nothing. -/
theorem output_newline_paths (promptArg : Option String) (walletAvail : Option Wallet)
    (walletFolder : String) :
    (∀ dialog, (mainResolve promptArg walletAvail walletFolder).item ≠ "" →
      mainRun promptArg walletAvail dialog walletFolder =
        { exitCode := 0,
          stdout := (mainResolve promptArg walletAvail walletFolder).item,
          wallet := (mainResolve promptArg walletAvail walletFolder).wallet }) ∧
    ((mainResolve promptArg walletAvail walletFolder).item = "" →
      mainRun promptArg walletAvail .cancelled walletFolder =
        { exitCode := 1, stdout := "",
          wallet := (mainResolve promptArg walletAvail walletFolder).wallet }) ∧
    (∀ v k, (mainResolve promptArg walletAvail walletFolder).item = "" →
      (mainRun promptArg walletAvail (.accepted v k) walletFolder).exitCode = 0 ∧
      (mainRun promptArg walletAvail (.accepted v k) walletFolder).stdout =
        (if (classifyArg promptArg).ptype = PromptType.TypeConfirm
          then "yes\n" else v) ++ "\n") := by
  refine ⟨fun dialog h => ?_, fun h => ?_, fun v k h => ?_⟩
  · simp [mainRun, h]
  · cases hpt : (classifyArg promptArg).ptype <;> simp [mainRun, h, hpt]
  · cases hpt : (classifyArg promptArg).ptype <;> simp [mainRun, h, hpt]

theorem output_newline_paths_witness :
    (∀ dialog, (mainResolve none none "ksshaskpass").item ≠ "" →
      mainRun none none dialog "ksshaskpass" =
        { exitCode := 0, stdout := (mainResolve none none "ksshaskpass").item,
          wallet := (mainResolve none none "ksshaskpass").wallet }) ∧
    ((mainResolve none none "ksshaskpass").item = "" →
      mainRun none none .cancelled "ksshaskpass" =
        { exitCode := 1, stdout := "",
          wallet := (mainResolve none none "ksshaskpass").wallet }) ∧
    (∀ v k, (mainResolve none none "ksshaskpass").item = "" →
      (mainRun none none (.accepted v k) "ksshaskpass").exitCode = 0 ∧
      (mainRun none none (.accepted v k) "ksshaskpass").stdout =
        (if (classifyArg none).ptype = PromptType.TypeConfirm
          then "yes\n" else v) ++ "\n") :=
  output_newline_paths none none "ksshaskpass"

/-! Claim C9: bytes printed for an accepted confirmation. -/

/-- C9: accepting a confirmation prompt writes exactly "yes\n\n" — the fixed
sentinel "yes\n" plus the newline the fresh-collection output path appends —
and exits 0; the wallet handle is none because every confirmation pattern
sets ignoreWallet. -/
theorem confirmation_accepted_output (promptArg : Option String)
    (walletAvail : Option Wallet) (walletFolder : String) (v : String) (k : Bool)
    (h : (classifyArg promptArg).ptype = PromptType.TypeConfirm) :
    mainRun promptArg walletAvail (.accepted v k) walletFolder =
      { exitCode := 0, stdout := "yes\n\n", wallet := none } := by
  have hig : (classifyArg promptArg).ignoreWallet = true :=
    classifyArg_confirm_ignoreWallet promptArg h
  have hres : ∀ idOpt, resolve idOpt true walletAvail walletFolder =
      { item := "", wallet := none, reads := [] } := by
    intro idOpt
    cases idOpt <;> simp [resolve]
  have hr : mainResolve promptArg walletAvail walletFolder =
      { item := "", wallet := none, reads := [] } := by
    rw [mainResolve, hig, hres]
  simp [mainRun, hr, h]

theorem confirmation_accepted_output_witness :
    mainRun (some "Open a on b") none (.accepted "x" false) "ksshaskpass" =
      { exitCode := 0, stdout := "yes\n\n", wallet := none } :=
  confirmation_accepted_output (some "Open a on b") none "ksshaskpass" "x" false
    (by decide)

/-! Structural facts about the matcher, for the anchoring claims. -/

/-- Whether every way through the expression ends at the `$` anchor (true for
all regexes of the table, each of which ends in `$`). -/
def endsAnchoredB : RE → Bool
  | .endAnchor => true
  | .seq _ b => endsAnchoredB b
  | .alt a b => endsAnchoredB a && endsAnchoredB b
  | .group _ r => endsAnchoredB r
  | .eps => false
  | .str _ => false
  | .dotstar _ => false

theorem head?_mem {α : Type} {l : List α} {a : α} (h : l.head? = some a) : a ∈ l := by
  cases l with
  | nil => simp at h
  | cons x t =>
      simp only [List.head?_cons, Option.some.injEq] at h
      exact h ▸ List.mem_cons_self x t

theorem mem_matchList_seq {a b : RE} {s rem : List Char} {caps : Caps}
    (h : (rem, caps) ∈ (RE.seq a b).matchList s) :
    ∃ r1 c1 c2, (r1, c1) ∈ a.matchList s ∧ (rem, c2) ∈ b.matchList r1 ∧
      caps = c1 ++ c2 := by
  simp only [RE.matchList, List.mem_flatMap, List.mem_map] at h
  obtain ⟨⟨r1, c1⟩, h1, ⟨r2, c2⟩, h2, heq⟩ := h
  have hrem : r2 = rem := congrArg Prod.fst heq
  have hcaps : c1 ++ c2 = caps := congrArg Prod.snd heq
  exact ⟨r1, c1, c2, h1, hrem ▸ h2, hcaps.symm⟩

/-- A match of an expression that ends at `$` leaves nothing behind, or just
the one final newline PCRE's `$` tolerates. -/
theorem rem_of_endsAnchored (r : RE) (h : endsAnchoredB r = true) :
    ∀ s rem caps, (rem, caps) ∈ r.matchList s → rem = [] ∨ rem = ['\n'] := by
  induction r with
  | eps => simp [endsAnchoredB] at h
  | str t => simp [endsAnchoredB] at h
  | dotstar g => simp [endsAnchoredB] at h
  | seq a b iha ihb =>
      intro s rem caps hm
      obtain ⟨r1, c1, c2, _, h2, _⟩ := mem_matchList_seq hm
      exact ihb (by simpa [endsAnchoredB] using h) r1 rem c2 h2
  | alt a b iha ihb =>
      intro s rem caps hm
      simp only [RE.matchList, List.mem_append] at hm
      rw [endsAnchoredB, Bool.and_eq_true] at h
      rcases hm with hm | hm
      · exact iha h.1 s rem caps hm
      · exact ihb h.2 s rem caps hm
  | group n r ih =>
      intro s rem caps hm
      simp only [RE.matchList, List.mem_map] at hm
      obtain ⟨⟨r1, c1⟩, h1, heq⟩ := hm
      have hr : r1 = rem := congrArg Prod.fst heq
      exact hr ▸ ih (by simpa [endsAnchoredB] using h) s r1 c1 h1
  | endAnchor =>
      intro s rem caps hm
      simp only [RE.matchList] at hm
      by_cases hs : s = [] ∨ s = ['\n']
      · rw [if_pos hs] at hm
        simp only [List.mem_singleton, Prod.mk.injEq] at hm
        exact hm.1 ▸ hs
      · rw [if_neg hs] at hm
        simp at hm

/-! Claim C4: full anchoring of the pattern table. -/

/-- C4 counterexample: the Enter-PIN regex carries no `^`, so the prompt
"xEnter PIN for 'tok': ", in which the pattern's text occurs only as a proper
trailing substring, is still matched by it (at offset 1) and classified. -/
theorem pin_pattern_matches_inside :
    pat6.tryMatch ("xEnter PIN for 'tok': ".data) = some (1, [], [(1, "tok")]) ∧
    classify "xEnter PIN for 'tok': " =
      { identifier := some "tok", ignoreWallet := false,
        ptype := PromptType.TypePassword, diagnostic := none } := by
  decide

/-- C4 amended: every pattern of the table except the Enter-PIN one matches
only from the very start of the prompt (offset 0) through its end — PCRE's
`$` also tolerating a position just before one final newline; the Enter-PIN
pattern is anchored only at the end and does match a prompt in which its text
is a proper trailing substring. -/
theorem anchored_patterns_cover_prompt :
    (∀ p ∈ patternTable, p.anchored = true →
      ∀ s st rem caps, p.tryMatch s = some (st, rem, caps) →
        st = 0 ∧ (rem = [] ∨ rem = ['\n'])) ∧
    pat6.anchored = false ∧
    pat6.tryMatch ("xEnter PIN for 'tok': ".data) = some (1, [], [(1, "tok")]) := by
  refine ⟨?_, rfl, by decide⟩
  intro p hp ha s st rem caps hm
  have hAnch : endsAnchoredB p.re = true := by
    have htab : ∀ q ∈ patternTable, endsAnchoredB q.re = true := by decide
    exact htab p hp
  rw [Pattern.tryMatch, if_pos ha] at hm
  obtain ⟨⟨r0, c0⟩, hh, heq⟩ := Option.map_eq_some'.mp hm
  have hst : st = 0 := (congrArg Prod.fst heq).symm
  have hrem : r0 = rem := congrArg (fun x => x.2.1) heq
  have hmem : (r0, c0) ∈ p.re.matchList s := head?_mem hh
  exact ⟨hst, hrem ▸ rem_of_endsAnchored p.re hAnch s r0 c0 hmem⟩

/-! Suffix reasoning used to rule patterns out on whole families of prompts. -/

/-- The list `t` is a (not necessarily proper) suffix of `s`. -/
def endsIn (t s : List Char) : Prop := ∃ u, u ++ t = s

theorem endsIn_refl (s : List Char) : endsIn s s := ⟨[], rfl⟩

theorem endsIn_trans {a b c : List Char} (h1 : endsIn a b) (h2 : endsIn b c) :
    endsIn a c := by
  obtain ⟨u, hu⟩ := h1
  obtain ⟨v, hv⟩ := h2
  exact ⟨v ++ u, by rw [List.append_assoc, hu, hv]⟩

theorem mem_of_endsIn {c : Char} {t s : List Char} (h : endsIn t s) (hc : c ∈ t) :
    c ∈ s := by
  obtain ⟨u, hu⟩ := h
  exact hu ▸ List.mem_append_right u hc

/-- A two-character suffix of a list ending in two known characters is those
two characters. -/
theorem endsIn_last2 {u : List Char} {a b x y : Char}
    (h : endsIn [x, y] (u ++ [a, b])) : x = a ∧ y = b := by
  obtain ⟨v, hv⟩ := h
  have hlen : v.length = u.length := by
    have := congrArg List.length hv
    simp at this
    omega
  have := (List.append_inj hv hlen).2
  simp at this
  exact this

theorem dropPref_sound : ∀ (t s r : List Char), dropPref t s = some r → s = t ++ r
  | [], s, r, h => by simpa [dropPref] using (by simpa [dropPref] using h : s = r)
  | c :: t, [], r, h => by simp [dropPref] at h
  | c :: t, d :: s, r, h => by
      by_cases hc : c = d
      · rw [dropPref, if_pos hc] at h
        have := dropPref_sound t s r h
        simp [hc, this]
      · rw [dropPref, if_neg hc] at h
        exact absurd h (by simp)

theorem dropPref_append_self : ∀ (t s : List Char), dropPref t (t ++ s) = some s
  | [], s => rfl
  | c :: t, s => by simp [dropPref, dropPref_append_self t s]

theorem mem_matchList_str {t s rem : List Char} {caps : Caps}
    (h : (rem, caps) ∈ (RE.str t).matchList s) : dropPref t s = some rem := by
  simp only [RE.matchList] at h
  cases hd : dropPref t s with
  | none => rw [hd] at h; simp at h
  | some r =>
      rw [hd] at h
      simp only [List.mem_singleton, Prod.mk.injEq] at h
      rw [h.1]

theorem mem_matchList_endAnchor {s rem : List Char} {caps : Caps}
    (h : (rem, caps) ∈ RE.endAnchor.matchList s) :
    rem = s ∧ (s = [] ∨ s = ['\n']) := by
  simp only [RE.matchList] at h
  by_cases hs : s = [] ∨ s = ['\n']
  · rw [if_pos hs] at h
    simp only [List.mem_singleton, Prod.mk.injEq] at h
    exact ⟨h.1, hs⟩
  · rw [if_neg hs] at h
    simp at h

/-- Whatever a subexpression leaves unconsumed is a suffix of its input. -/
theorem matchList_rem_endsIn (r : RE) :
    ∀ s rem caps, (rem, caps) ∈ r.matchList s → endsIn rem s := by
  induction r with
  | eps =>
      intro s rem caps h
      simp only [RE.matchList, List.mem_singleton, Prod.mk.injEq] at h
      exact h.1 ▸ endsIn_refl s
  | str t =>
      intro s rem caps h
      exact ⟨t, (dropPref_sound t s rem (mem_matchList_str h)).symm⟩
  | dotstar g =>
      intro s rem caps h
      simp only [RE.matchList, List.mem_map] at h
      obtain ⟨k, _, heq⟩ := h
      have : s.drop k = rem := congrArg Prod.fst heq
      exact this ▸ ⟨s.take k, List.take_append_drop k s⟩
  | seq a b iha ihb =>
      intro s rem caps h
      obtain ⟨r1, c1, c2, h1, h2, _⟩ := mem_matchList_seq h
      exact endsIn_trans (ihb r1 rem c2 h2) (iha s r1 c1 h1)
  | alt a b iha ihb =>
      intro s rem caps h
      simp only [RE.matchList, List.mem_append] at h
      rcases h with h | h
      · exact iha s rem caps h
      · exact ihb s rem caps h
  | group n r ih =>
      intro s rem caps h
      simp only [RE.matchList, List.mem_map] at h
      obtain ⟨⟨r1, c1⟩, h1, heq⟩ := h
      have : r1 = rem := congrArg Prod.fst heq
      exact this ▸ ih s r1 c1 h1
  | endAnchor =>
      intro s rem caps h
      exact (mem_matchList_endAnchor h).1 ▸ endsIn_refl s

/-- A match of `a` followed by a literal and `$` forces that literal (possibly
plus one final newline) to be a suffix of the whole input. -/
theorem seq_tail_endsIn {a : RE} (t : List Char) {s rem : List Char} {caps : Caps}
    (hm : (rem, caps) ∈ (RE.seq a (RE.seq (RE.str t) RE.endAnchor)).matchList s) :
    endsIn t s ∨ endsIn (t ++ ['\n']) s := by
  obtain ⟨r1, c1, c2, h1, h2, _⟩ := mem_matchList_seq hm
  obtain ⟨r2, c3, c4, h3, h4, _⟩ := mem_matchList_seq h2
  have hr1 : r1 = t ++ r2 := dropPref_sound t r1 r2 (mem_matchList_str h3)
  have hsuf : endsIn r1 s := matchList_rem_endsIn a s r1 c1 h1
  rcases (mem_matchList_endAnchor h4).2 with h | h
  · left
    rw [h] at hr1
    simpa [hr1] using hsuf
  · right
    rw [h] at hr1
    exact hr1 ▸ hsuf

/-- A successful unanchored search is a match on some suffix of the input. -/
theorem searchFrom_some_endsIn (r : RE) :
    ∀ (s : List Char) (off : Nat) (x : Nat × List Char × Caps),
      searchFrom r off s = some x →
      ∃ s2, endsIn s2 s ∧ (x.2.1, x.2.2) ∈ r.matchList s2 := by
  intro s
  induction s with
  | nil =>
      intro off x h
      simp only [searchFrom] at h
      obtain ⟨⟨r0, c0⟩, hh, heq⟩ := Option.map_eq_some'.mp h
      refine ⟨[], endsIn_refl [], ?_⟩
      rw [← heq]
      exact head?_mem hh
  | cons c t ih =>
      intro off x h
      simp only [searchFrom] at h
      cases hh : (r.matchList (c :: t)).head? with
      | some p =>
          rw [hh] at h
          refine ⟨c :: t, endsIn_refl _, ?_⟩
          have : x = (off, p.1, p.2) := by
            simp only [hh] at h
            exact (Option.some.inj h).symm
          rw [this]
          exact head?_mem hh
      | none =>
          rw [hh] at h
          obtain ⟨s2, hs2, hmem⟩ := ih (off + 1) x h
          exact ⟨s2, endsIn_trans hs2 ⟨[c], rfl⟩, hmem⟩

/-! List bookkeeping for the pattern-10 computation. -/

theorem drop_append_len (l r : List Char) (k : Nat) :
    (l ++ r).drop (l.length + k) = r.drop k := by
  induction l with
  | nil => simp
  | cons c t ih =>
      rw [List.cons_append, List.length_cons, Nat.succ_add, List.drop_succ_cons, ih]

theorem take_append_len (l r : List Char) (k : Nat) :
    (l ++ r).take (l.length + k) = l ++ r.take k := by
  induction l with
  | nil => simp
  | cons c t ih => simpa [List.length_cons, Nat.succ_add] using ih

theorem noNlRun_eq_length {l : List Char} (h : '\n' ∉ l) : noNlRun l = l.length := by
  induction l with
  | nil => rfl
  | cons c t ih =>
      have hc : ¬c = '\n' := fun hc => h (hc ▸ List.mem_cons_self c t)
      have ht : '\n' ∉ t := fun ht => h (List.mem_cons_of_mem c ht)
      simp [noNlRun, hc, ih ht]

theorem range_reverse_succ (n : Nat) :
    (List.range (n + 1)).reverse = n :: (List.range n).reverse := by
  rw [List.range_succ, List.reverse_append]
  simp

/-! Failure of patterns 1-9 and success of pattern 10 on every prompt of the
form "Disable further multiplexing on shared connection to X? ". -/

/-- The literal prefix of the multiplexing prompt, as characters. -/
def dmuxChars : List Char :=
  "Disable further multiplexing on shared connection to ".data

theorem matchList_str_head_ne {c d : Char} {t s : List Char} (h : ¬c = d) :
    (RE.str (c :: t)).matchList (d :: s) = [] := by
  simp [RE.matchList, dropPref, h]

theorem matchList_seq_nil {a b : RE} {s : List Char} (h : a.matchList s = []) :
    (RE.seq a b).matchList s = [] := by
  simp [RE.matchList, h]

theorem matchList_alt_nil {a b : RE} {s : List Char} (h1 : a.matchList s = [])
    (h2 : b.matchList s = []) : (RE.alt a b).matchList s = [] := by
  simp [RE.matchList, h1, h2]

theorem matchList_group_nil {n : Nat} {r : RE} {s : List Char}
    (h : r.matchList s = []) : (RE.group n r).matchList s = [] := by
  simp [RE.matchList, h]

theorem tryMatch_anchored_none {p : Pattern} {s : List Char} (ha : p.anchored = true)
    (h : p.re.matchList s = []) : p.tryMatch s = none := by
  simp [Pattern.tryMatch, ha, h]

theorem no_newline_family (X : List Char) (hX : '\n' ∉ X) :
    '\n' ∉ dmuxChars ++ (X ++ ['?', ' ']) := by
  intro h
  rcases List.mem_append.mp h with h | h
  · exact (by decide : ('\n' : Char) ∉ dmuxChars) h
  · rcases List.mem_append.mp h with h | h
    · exact hX h
    · exact (by decide : ('\n' : Char) ∉ (['?', ' '] : List Char)) h

/-- The multiplexing prompt never ends in the two characters colon-space. -/
theorem family_not_colon_space (X : List Char) (hX : '\n' ∉ X) :
    ¬(endsIn [':', ' '] (dmuxChars ++ (X ++ ['?', ' '])) ∨
      endsIn ([':', ' '] ++ ['\n']) (dmuxChars ++ (X ++ ['?', ' ']))) := by
  rintro (h | h)
  · rw [← List.append_assoc] at h
    exact absurd (endsIn_last2 h).1 (by decide)
  · exact no_newline_family X hX (mem_of_endsIn h (by decide))

theorem pat1_fail_family (X : List Char) (hX : '\n' ∉ X) :
    pat1.tryMatch (dmuxChars ++ (X ++ ['?', ' '])) = none := by
  apply tryMatch_anchored_none rfl
  rw [List.eq_nil_iff_forall_not_mem]
  rintro ⟨rem, caps⟩ hm
  exact family_not_colon_space X hX (seq_tail_endsIn (": ".data) hm)

theorem pat6_fail_family (X : List Char) (hX : '\n' ∉ X) :
    pat6.tryMatch (dmuxChars ++ (X ++ ['?', ' '])) = none := by
  show searchFrom pat6.re 0 (dmuxChars ++ (X ++ ['?', ' '])) = none
  cases h : searchFrom pat6.re 0 (dmuxChars ++ (X ++ ['?', ' '])) with
  | none => rfl
  | some x =>
      exfalso
      obtain ⟨s2, hs2, hmem⟩ := searchFrom_some_endsIn pat6.re _ 0 x h
      rcases seq_tail_endsIn ("': ".data) hmem with ht | ht
      · refine family_not_colon_space X hX (Or.inl ?_)
        exact endsIn_trans (endsIn_trans ⟨['\''], rfl⟩ ht) hs2
      · exact no_newline_family X hX
          (mem_of_endsIn hs2 (mem_of_endsIn ht (by decide)))

theorem pat2_fail_family (X : List Char) :
    pat2.tryMatch (dmuxChars ++ (X ++ ['?', ' '])) = none := by
  apply tryMatch_anchored_none rfl
  apply matchList_seq_nil
  apply matchList_group_nil
  exact matchList_alt_nil (matchList_str_head_ne (by decide))
    (matchList_str_head_ne (by decide))

theorem pat3_fail_family (X : List Char) :
    pat3.tryMatch (dmuxChars ++ (X ++ ['?', ' '])) = none := by
  apply tryMatch_anchored_none rfl
  exact matchList_seq_nil (matchList_str_head_ne (by decide))

theorem pat4_fail_family (X : List Char) :
    pat4.tryMatch (dmuxChars ++ (X ++ ['?', ' '])) = none := by
  apply tryMatch_anchored_none rfl
  exact matchList_seq_nil (matchList_str_head_ne (by decide))

theorem pat5_fail_family (X : List Char) :
    pat5.tryMatch (dmuxChars ++ (X ++ ['?', ' '])) = none := by
  apply tryMatch_anchored_none rfl
  exact matchList_seq_nil (matchList_str_head_ne (by decide))

theorem pat7_fail_family (X : List Char) :
    pat7.tryMatch (dmuxChars ++ (X ++ ['?', ' '])) = none := by
  apply tryMatch_anchored_none rfl
  apply matchList_seq_nil
  apply matchList_group_nil
  exact matchList_alt_nil (matchList_str_head_ne (by decide))
    (matchList_str_head_ne (by decide))

theorem pat8_fail_family (X : List Char) :
    pat8.tryMatch (dmuxChars ++ (X ++ ['?', ' '])) = none := by
  apply tryMatch_anchored_none rfl
  exact matchList_seq_nil (matchList_str_head_ne (by decide))

theorem pat9_fail_family (X : List Char) :
    pat9.tryMatch (dmuxChars ++ (X ++ ['?', ' '])) = none := by
  apply tryMatch_anchored_none rfl
  exact matchList_seq_nil (matchList_str_head_ne (by decide))

theorem matchList_consume_literal (t : List Char) (b : RE) (s : List Char) :
    (RE.seq (RE.str t) b).matchList (t ++ s) = b.matchList s := by
  simp [RE.matchList, dropPref_append_self]

/-- Head of the match list of the part of pattern 10 after its literal
prefix, on the remainder `X ++ "? "`: the greedy optional group captures
everything up to the last character, so the group text is `X ++ "?"`. -/
theorem B10_head (X : List Char) (hX : '\n' ∉ X) :
    ((RE.seq (RE.alt (RE.group 1 (RE.dotstar true)) RE.eps)
        (RE.seq (RE.str [' ']) RE.endAnchor)).matchList (X ++ ['?', ' '])).head? =
      some ([], [(1, String.mk (X ++ ['?']))]) := by
  have hTn : '\n' ∉ X ++ ['?', ' '] := by
    intro h
    rcases List.mem_append.mp h with h | h
    · exact hX h
    · exact (by decide : ('\n' : Char) ∉ (['?', ' '] : List Char)) h
  have hlen : (X ++ ['?', ' ']).length = X.length + 2 := by simp
  have hrun : noNlRun (X ++ ['?', ' ']) = X.length + 2 := by
    rw [noNlRun_eq_length hTn, hlen]
  have hdrop2 : (X ++ ['?', ' ']).drop (X.length + 2) = [] :=
    drop_append_len X ['?', ' '] 2
  have hdrop1 : (X ++ ['?', ' ']).drop (X.length + 1) = [' '] :=
    drop_append_len X ['?', ' '] 1
  have htake1 : (X ++ ['?', ' ']).take (X.length + 1) = X ++ ['?'] :=
    take_append_len X ['?', ' '] 1
  obtain ⟨rest, hds⟩ : ∃ rest, (RE.dotstar true).matchList (X ++ ['?', ' ']) =
      ([], []) :: ([' '], []) :: rest := by
    refine ⟨((List.range (X.length + 1)).reverse).map
      (fun k => ((X ++ ['?', ' ']).drop k, [])), ?_⟩
    show ((if true then (List.range (noNlRun (X ++ ['?', ' ']) + 1)).reverse
        else List.range (noNlRun (X ++ ['?', ' ']) + 1)).map
          (fun k => ((X ++ ['?', ' ']).drop k, ([] : Caps)))) = _
    rw [if_pos rfl, hrun, range_reverse_succ, range_reverse_succ,
      List.map_cons, List.map_cons, hdrop2, hdrop1]
  obtain ⟨rest2, hgroup⟩ : ∃ rest2,
      (RE.group 1 (RE.dotstar true)).matchList (X ++ ['?', ' ']) =
        ([], [(1, String.mk (X ++ ['?', ' ']))]) ::
        ([' '], [(1, String.mk (X ++ ['?']))]) :: rest2 := by
    refine ⟨rest.map (fun p => (p.1,
      (1, String.mk ((X ++ ['?', ' ']).take ((X ++ ['?', ' ']).length - p.1.length)))
        :: p.2)), ?_⟩
    show ((RE.dotstar true).matchList (X ++ ['?', ' '])).map _ = _
    rw [hds, List.map_cons, List.map_cons]
    have h2 : (X ++ ['?', ' ']).length - ([] : List Char).length = X.length + 2 := by
      rw [hlen]; rfl
    have h1 : (X ++ ['?', ' ']).length - ([' '] : List Char).length = X.length + 1 := by
      rw [hlen]; rfl
    rw [h2, h1, htake1]
    have htakeAll : (X ++ ['?', ' ']).take (X.length + 2) = X ++ ['?', ' '] := by
      rw [← hlen]; exact List.take_length _
    rw [htakeAll]
  obtain ⟨rest3, halt⟩ : ∃ rest3,
      (RE.alt (RE.group 1 (RE.dotstar true)) RE.eps).matchList (X ++ ['?', ' ']) =
        ([], [(1, String.mk (X ++ ['?', ' ']))]) ::
        ([' '], [(1, String.mk (X ++ ['?']))]) :: rest3 := by
    refine ⟨rest2 ++ [(X ++ ['?', ' '], [])], ?_⟩
    show (RE.group 1 (RE.dotstar true)).matchList (X ++ ['?', ' ']) ++
        RE.eps.matchList (X ++ ['?', ' ']) = _
    rw [hgroup]
    rfl
  show (((RE.alt (RE.group 1 (RE.dotstar true)) RE.eps).matchList
      (X ++ ['?', ' '])).flatMap (fun p =>
        ((RE.seq (RE.str [' ']) RE.endAnchor).matchList p.1).map
          (fun q => (q.1, p.2 ++ q.2)))).head? =
      some ([], [(1, String.mk (X ++ ['?']))])
  rw [halt, List.flatMap_cons, List.flatMap_cons]
  have hD0 : (RE.seq (RE.str [' ']) RE.endAnchor).matchList [] = [] := rfl
  have hD1 : (RE.seq (RE.str [' ']) RE.endAnchor).matchList [' '] = [([], [])] := rfl
  rw [hD0, hD1]
  rfl

/-- Pattern 10 matches the whole multiplexing prompt, capturing `X ++ "?"` —
the unescaped question mark stays inside the greedy group. -/
theorem pat10_tryMatch (X : List Char) (hX : '\n' ∉ X) :
    pat10.tryMatch (dmuxChars ++ (X ++ ['?', ' '])) =
      some (0, [], [(1, String.mk (X ++ ['?']))]) := by
  show ((RE.seq (RE.str dmuxChars)
      (RE.seq (RE.alt (RE.group 1 (RE.dotstar true)) RE.eps)
        (RE.seq (RE.str [' ']) RE.endAnchor))).matchList
          (dmuxChars ++ (X ++ ['?', ' ']))).head?.map
      (fun q => (0, q.1, q.2)) = _
  rw [matchList_consume_literal, B10_head X hX]
  rfl

/-! Claim C5: classification of the multiplexing prompt. -/

/-- C5 counterexample: the question mark of the prompt is not escaped in the
regex, so it lands inside the capture — the identifier is "host?", not
"host". -/
theorem multiplexing_identifier_keeps_question_mark :
    (classify "Disable further multiplexing on shared connection to host? ").identifier
        = some "host?" ∧
    (some "host?" : Option String) ≠ some "host" ∧
    (classify "Disable further multiplexing on shared connection to host? ").ptype
        = PromptType.TypeConfirm := by
  decide

/-- C5 amended: for every X free of newlines, the multiplexing prompt is a
confirmation with allow_store_lookup false, but the identifier is X followed
by the question mark (the unescaped `?` of the regex makes the group optional
instead of matching the literal question mark, which the greedy group then
swallows). -/
theorem multiplexing_prompt_classified (X : String) (hX : '\n' ∉ X.data) :
    classify ("Disable further multiplexing on shared connection to " ++ X ++ "? ") =
      { identifier := some (X ++ "?"), ignoreWallet := true,
        ptype := PromptType.TypeConfirm, diagnostic := none } := by
  have hdata : ("Disable further multiplexing on shared connection to " ++ X ++ "? ").data
      = dmuxChars ++ (X.data ++ ['?', ' ']) := by
    show (dmuxChars ++ X.data) ++ ['?', ' '] = _
    rw [List.append_assoc]
  have hrun : runPatterns patternTable (dmuxChars ++ (X.data ++ ['?', ' '])) =
      some (pat10, [(1, String.mk (X.data ++ ['?']))]) := by
    simp only [patternTable, runPatterns,
      pat1_fail_family X.data hX, pat2_fail_family X.data, pat3_fail_family X.data,
      pat4_fail_family X.data, pat5_fail_family X.data, pat6_fail_family X.data hX,
      pat7_fail_family X.data, pat8_fail_family X.data, pat9_fail_family X.data,
      pat10_tryMatch X.data hX]
  have hporig : runPatterns patternTable
      ("Disable further multiplexing on shared connection to " ++ X ++ "? ").data =
      some (pat10, [(1, String.mk (X.data ++ ['?']))]) := by
    rw [hdata]; exact hrun
  simp only [classify, parsePrompt, hporig]
  rfl

theorem multiplexing_prompt_classified_witness :
    classify ("Disable further multiplexing on shared connection to " ++ "host" ++ "? ") =
      { identifier := some ("host" ++ "?"), ignoreWallet := true,
        ptype := PromptType.TypeConfirm, diagnostic := none } :=
  multiplexing_prompt_classified "host" (by decide)

end Ksshaskpass
